import Mathlib

/-!
Verification of the AI Wiki Quiz Generator backend.

The development shallowly embeds the core pipeline of the repository:
the pydantic schema models (`models.py`), the response-validation logic of
the quiz synthesizer (`llm_quiz_generator.py`), the fetch fallback of the
scraper (`scraper.py`), the database layer with its unique-URL constraint
(`database.py`, `cache_manager.py`), and the orchestration endpoint
(`main.py`), including a small-step interleaving semantics for concurrent
callers of the generate endpoint.
-/

namespace WikiQuiz

/-- JSON values as produced by `json.loads`: the input to pydantic
`model_validate` calls.  Numbers are modelled as integers (fractional
values play no role in any schema field considered here). -/
inductive Json where
  | str (s : String)
  | num (n : Int)
  | bool (b : Bool)
  | null
  | arr (elems : List Json)
  | obj (fields : List (String × Json))

/-- Lookup of a key in a JSON object, first occurrence (objects coming
from `json.loads` have unique keys). -/
def getField : List (String × Json) → String → Option Json
  | [], _ => none
  | p :: rest, k => if p.1 = k then some p.2 else getField rest k

/-- Coercion of a JSON value to a `str` field, as pydantic's lax mode
treats JSON input: only a JSON string is accepted. -/
def asStr : Json → Option String
  | .str s => some s
  | _ => none

/-- Coercion of a JSON value to a `List[str]` field: an array whose
elements are all strings. -/
def asStrList : Json → Option (List String)
  | .arr es => es.foldr (fun e acc => do
      let s ← asStr e
      let rest ← acc
      some (s :: rest)) (some [])
  | _ => none

/-- `models.QuizItem` (src/models.py lines 6-11). -/
structure QuizItem where
  question : String
  options : List String
  answer : String
  difficulty : String
  explanation : String
deriving Repr, DecidableEq

/-- `models.KeyEntities` (src/models.py lines 13-16): three list fields,
each defaulting to the empty list. -/
structure KeyEntities where
  people : List String
  organizations : List String
  locations : List String
deriving Repr, DecidableEq

/-- `models.QuizOutput` (src/models.py lines 18-25). -/
structure QuizOutput where
  url : String
  title : String
  summary : String
  key_entities : KeyEntities
  sections : List String
  quiz : List QuizItem
  related_topics : List String
deriving Repr, DecidableEq

/-- Membership of a string in the `Difficulty` literal set
`Literal["easy", "medium", "hard"]` (src/models.py line 4). -/
def isDifficulty (s : String) : Bool :=
  s = "easy" || s = "medium" || s = "hard"

/-- Validation of a JSON value against `QuizItem`: required string fields
`question`, `answer`, `explanation`; `options` a list of strings with
`min_length=4, max_length=4`; `difficulty` restricted to the literal set. -/
def validateQuizItem (j : Json) : Option QuizItem :=
  match j with
  | .obj fs =>
    match getField fs "question" >>= asStr, getField fs "options" >>= asStrList,
          getField fs "answer" >>= asStr, getField fs "difficulty" >>= asStr,
          getField fs "explanation" >>= asStr with
    | some q, some opts, some ans, some diff, some expl =>
      if opts.length = 4 && isDifficulty diff then
        some ⟨q, opts, ans, diff, expl⟩
      else none
    | _, _, _, _, _ => none
  | _ => none

/-- Validation of a list-of-strings field with a default of `[]` when the
key is absent (the `= []` defaults on `KeyEntities`). -/
def optListField (fs : List (String × Json)) (k : String) : Option (List String) :=
  match getField fs k with
  | none => some []
  | some v => asStrList v

/-- Validation of a JSON value against `KeyEntities`: a JSON object whose
`people`, `organizations` and `locations` entries, when present, are
string lists; an absent entry defaults to the empty list. -/
def validateKeyEntities (j : Json) : Option KeyEntities :=
  match j with
  | .obj fs =>
    match optListField fs "people", optListField fs "organizations",
          optListField fs "locations" with
    | some p, some o, some l => some ⟨p, o, l⟩
    | _, _, _ => none
  | _ => none

/-- Validation of each element of the `quiz` array. -/
def validateQuizList : List Json → Option (List QuizItem)
  | [] => some []
  | j :: rest =>
    match validateQuizItem j, validateQuizList rest with
    | some item, some items => some (item :: items)
    | _, _ => none

/-- Validation of a JSON value against `QuizOutput`
(`QuizOutput.model_validate`): all seven fields are required; `quiz` must
be an array of valid `QuizItem`s (its length is not constrained by the
model), `sections` and `related_topics` arrays of strings (their lengths
are likewise unconstrained). -/
def validateQuizOutput (j : Json) : Option QuizOutput :=
  match j with
  | .obj fs =>
    match getField fs "url" >>= asStr, getField fs "title" >>= asStr,
          getField fs "summary" >>= asStr,
          (getField fs "key_entities").bind validateKeyEntities,
          getField fs "sections" >>= asStrList,
          getField fs "related_topics" >>= asStrList with
    | some url, some title, some summary, some ke, some secs, some rel =>
      match getField fs "quiz" with
      | some (.arr qs) =>
        match validateQuizList qs with
        | some items => some ⟨url, title, summary, ke, secs, items, rel⟩
        | none => none
      | _ => none
    | _, _, _, _, _, _ => none
  | _ => none

/-- Update (or, when absent, add) a key of a JSON object field list, as
a Python `dict` item assignment does. -/
def setField (fs : List (String × Json)) (k : String) (v : Json) :
    List (String × Json) :=
  if fs.any (fun p => p.1 = k) then
    fs.map (fun p => if p.1 = k then (k, v) else p)
  else fs ++ [(k, v)]

/-- Item assignment on a JSON value: `data[k] = v` when `data` is an
object; any other shape is left unchanged (the code only performs it on
objects that passed validation). -/
def jsonSet (j : Json) (k : String) (v : Json) : Json :=
  match j with
  | .obj fs => .obj (setField fs k v)
  | other => other

/-- Field access `data.get(k)` on a JSON object. -/
def jsonGet (j : Json) (k : String) : Option Json :=
  match j with
  | .obj fs => getField fs k
  | _ => none

/-- Python's `str.lower()`, character by character. -/
def pyLower (s : String) : String :=
  ⟨s.data.map Char.toLower⟩

/-- Lowercasing of one quiz entry's `difficulty`, as the loop body in
`_try_once` does: only when the entry is an object whose `difficulty`
value is a string. -/
def lowerDifficulty (q : Json) : Json :=
  match q with
  | .obj fs =>
    match getField fs "difficulty" with
    | some (.str d) => .obj (setField fs "difficulty" (.str (pyLower d)))
    | _ => .obj fs
  | other => other

/-- The normalization loop of `_try_once` (src/llm_quiz_generator.py
lines 135-137): for each entry of `data.get("quiz", [])`, lowercase its
`difficulty` when it is a string. -/
def lowerDifficulties (data : Json) : Json :=
  match data with
  | .obj fs =>
    match getField fs "quiz" with
    | some (.arr qs) => .obj (setField fs "quiz" (.arr (qs.map lowerDifficulty)))
    | _ => .obj fs
  | other => other

/-- The post-parse body of `_try_once` (src/llm_quiz_generator.py lines
133-139), applied to the JSON value produced by `json.loads`: validate
against `QuizOutput`, then lowercase each quiz entry's difficulty, then
validate again; any validation failure aborts the attempt (`none`). Note
the order: the first `model_validate` call runs BEFORE the lowercasing. -/
def tryOnceValidate (data : Json) : Option Json :=
  match validateQuizOutput data with
  | none => none
  | some _ =>
    let data2 := lowerDifficulties data
    match validateQuizOutput data2 with
    | none => none
    | some _ => some data2

/-- The schema-validation order the spec describes for `_try_once`:
normalize each quiz item's difficulty to lowercase, THEN validate the
whole structure.  Kept beside `tryOnceValidate` (the order the code
implements) to exhibit their divergence. -/
def specOrderValidate (data : Json) : Option Json :=
  let data2 := lowerDifficulties data
  match validateQuizOutput data2 with
  | none => none
  | some _ => some data2

/-- Outcome of one `_try_once` call, before JSON-level processing: the
backend's raw response either parsed to a JSON value or failed to parse
(empty response, non-JSON text) with a diagnostic string. -/
inductive BackendResp where
  | parsed (j : Json)
  | unparsable (msg : String)

/-- Result of `_try_once`: `(True, data)` or `(False, diagnostic)`. -/
inductive TryResult where
  | ok (data : Json)
  | err (msg : String)

/-- `_try_once` on a backend response (src/llm_quiz_generator.py lines
127-143): an unparsable response yields a diagnostic; a parsed response
goes through validate / lowercase / re-validate, turning a validation
failure into a diagnostic. -/
def tryOnce (r : BackendResp) : TryResult :=
  match r with
  | .unparsable msg => .err msg
  | .parsed j =>
    match tryOnceValidate j with
    | some d => .ok d
    | none => .err "ValidationError"

/-- Python truthiness of a JSON value, as `or` evaluates it. -/
def jsonTruthy : Json → Bool
  | .str s => !(s = "")
  | .num n => !(n = 0)
  | .bool b => b
  | .null => false
  | .arr es => !es.isEmpty
  | .obj fs => !fs.isEmpty

/-- The post-success fixup of `generate_quiz` (src/llm_quiz_generator.py
lines 151-153 and 157-159): `result["url"] = url` and
`result["title"] = result.get("title") or title`. -/
def finalize (data : Json) (url title : String) : Json :=
  let d1 := jsonSet data "url" (.str url)
  let tv := (jsonGet d1 "title").getD .null
  jsonSet d1 "title" (if jsonTruthy tv then tv else .str title)

/-- `generate_quiz` (src/llm_quiz_generator.py lines 145-163), with the
two backend responses (first attempt, then the nudged retry) passed as
parameters: first success returns its fixed-up data; otherwise the
nudged attempt's success returns its fixed-up data; otherwise a
`RuntimeError` whose message carries the second attempt's diagnostic
(`result2 if not ok2 else result` with `ok2` false). -/
def generate_quiz (url title : String) (r1 r2 : BackendResp) :
    Except String Json :=
  match tryOnce r1 with
  | .ok d => .ok (finalize d url title)
  | .err _ =>
    match tryOnce r2 with
    | .ok d2 => .ok (finalize d2 url title)
    | .err e2 => .error ("Model failed. Last error: " ++ e2)

/-- Identity a request is issued with: `DESKTOP_HEADERS` or
`MOBILE_HEADERS` (src/scraper.py lines 4-21). -/
inductive Identity where
  | desktop
  | mobile
deriving Repr, DecidableEq

/-- Result of one `_fetch` call: the response body on a success status,
or the HTTP status code raised by `raise_for_status` (src/scraper.py
lines 24-27). -/
inductive FetchResult where
  | success (html : String)
  | httpError (status : Nat)
deriving Repr, DecidableEq

/-- A web source: what each URL returns under each request identity. -/
def World : Type := String → Identity → FetchResult

/-- Replacement of every non-overlapping occurrence of `pat` (nonempty)
in `s` by `rep`, scanning left to right, as Python's `str.replace` does.
The fuel argument is initialized to the length of `s`; every recursive
call consumes at least one character, so the fuel never runs out. -/
def replaceChars : Nat → List Char → List Char → List Char → List Char
  | 0, s, _, _ => s
  | fuel + 1, s, pat, rep =>
    match s with
    | [] => []
    | c :: rest =>
      if s.take pat.length = pat then
        rep ++ replaceChars fuel (s.drop pat.length) pat rep
      else
        c :: replaceChars fuel rest pat rep

/-- Python's `s.replace(pat, rep)` for a nonempty pattern. -/
def pyReplace (s pat rep : String) : String :=
  if pat.isEmpty then s
  else ⟨replaceChars s.data.length s.data pat.data rep.data⟩

/-- The mobile-subdomain rewrite in `scrape_wikipedia` (src/scraper.py
line 72): `url.replace("https://en.wikipedia.org",
"https://m.wikipedia.org")`. -/
def mobileUrl (url : String) : String :=
  pyReplace url "https://en.wikipedia.org" "https://m.wikipedia.org"

/-- The fetch part of `scrape_wikipedia` (src/scraper.py lines 58-77):
fetch with the desktop identity; on an HTTP error with status 403 or
429, fetch the mobile-rewritten URL once with the mobile identity, and
let any error of that second fetch propagate; on any other status,
re-raise the original error. Returns the raw HTML or the status code of
the error that propagates. -/
def scrapeFetch (w : World) (url : String) : Except Nat String :=
  match w url .desktop with
  | .success html => .ok html
  | .httpError status =>
    if status = 403 || status = 429 then
      match w (mobileUrl url) .mobile with
      | .success html => .ok html
      | .httpError s2 => .error s2
    else .error status

/-- The minimum-content gate of `generate_quiz_endpoint` (src/main.py
lines 106-107): `if not text or len(text) < 200:` raise HTTP 422
"Could not extract sufficient article text". Returns `true` when the
text is rejected as insufficient. -/
def insufficientContent (text : String) : Bool :=
  text = "" || text.length < 200

/-- A persisted row of the `quizzes` table (src/database.py lines 20-28):
surrogate `id`, unique `url`, `title` and the serialized quiz payload
(the columns not referenced by any claim are elided). -/
structure QuizRow where
  id : Nat
  url : String
  title : String
  fullQuizData : String
deriving Repr, DecidableEq

/-- State of the database: the stored rows and the next autoincrement
id. -/
structure DBState where
  rows : List QuizRow
  nextId : Nat
deriving Repr, DecidableEq

/-- `db.query(Quiz).filter(Quiz.url == url).first()`: the first stored
row with the given URL. -/
def dbLookup (db : DBState) (url : String) : Option QuizRow :=
  db.rows.find? (fun r => r.url = url)

/-- What a cache hit returns to the caller (`check_cache`,
src/cache_manager.py lines 12-34): the stored payload with the row's
`id` merged in and `cached` set to true; generate-path successes reuse
the same shape with `cached` false. -/
structure QuizResponse where
  id : Nat
  cached : Bool
  data : String
deriving Repr, DecidableEq

/-- Removal of leading whitespace characters from a character list. -/
def dropLeadingWs : List Char → List Char
  | [] => []
  | c :: rest => if c.isWhitespace then dropLeadingWs rest else c :: rest

/-- Python's `str.strip()`: leading and trailing whitespace removed. -/
def pyStrip (s : String) : String :=
  ⟨(dropLeadingWs (dropLeadingWs s.data).reverse).reverse⟩

/-- `check_cache(db, url)` (src/cache_manager.py): strip the URL, look
the row up, and return its payload annotated as a cache hit. -/
def check_cache (db : DBState) (url : String) : Option QuizResponse :=
  (dbLookup db (pyStrip url)).map (fun r => ⟨r.id, true, r.fullQuizData⟩)

/-- Outcome of `db.add(record); db.commit()` under the unique constraint
on `url`: either the new database state together with the inserted row,
or an `IntegrityError` (duplicate key) leaving the database unchanged
(the handler calls `db.rollback()`). -/
inductive InsertResult where
  | inserted (db : DBState) (r : QuizRow)
  | duplicateKey
deriving Repr, DecidableEq

/-- Insert of a fresh row keyed by URL: fails with a duplicate-key
conflict when some stored row already has that URL, otherwise appends a
row carrying the next autoincrement id. -/
def dbInsert (db : DBState) (url title data : String) : InsertResult :=
  if db.rows.any (fun r => r.url = url) then .duplicateKey
  else
    .inserted ⟨db.rows ++ [⟨db.nextId, url, title, data⟩], db.nextId + 1⟩
      ⟨db.nextId, url, title, data⟩

/-- What `generate_quiz_endpoint` hands back for the claims about the
store: a successful response, or the HTTP 500 "Database error" raised
when the duplicate-key recovery finds no row. -/
inductive Outcome where
  | ok (id : Nat) (cached : Bool)
  | dbError
deriving Repr, DecidableEq

/-- The store-and-return tail of `generate_quiz_endpoint` (src/main.py
lines 114-137): insert the freshly synthesized record and return it
uncached; on `IntegrityError`, roll back, re-run `check_cache` and
return the stored record as a cache hit, raising HTTP 500 only if even
that lookup misses. -/
def storeAndReturn (db : DBState) (url title data : String) :
    DBState × Outcome :=
  match dbInsert db url title data with
  | .inserted db' r => (db', .ok r.id false)
  | .duplicateKey =>
    match check_cache db url with
    | some hit => (db, .ok hit.id hit.cached)
    | none => (db, .dbError)

/-- Control point of one caller of `generate_quiz_endpoint` racing on
URL `u`, between its atomic database accesses.  The scrape and
synthesis steps touch no shared state, so their (per-caller) result —
the title and serialized payload the caller would insert — is carried in
the control state. -/
inductive CallerState where
  | start (title data : String)
  | afterMiss (title data : String)
  | retryLookup
  | finished (out : Outcome)
deriving Repr, DecidableEq

/-- Global state of the race: the shared database and each caller's
control point. -/
structure SysState where
  db : DBState
  callers : List CallerState
deriving Repr, DecidableEq

/-- One atomic step of a single caller against the database, following
`generate_quiz_endpoint` (src/main.py lines 83-137): the initial
`check_cache` (hit returns immediately as cached, miss proceeds to
scrape/synthesize/insert), the `insert` (success returns the fresh row
uncached, `IntegrityError` rolls back), and the recovery `check_cache`
(hit returns cached, miss raises the 500 "Database error").  A finished
caller takes no step. -/
def callerStep (u : String) (db : DBState) : CallerState → Option (DBState × CallerState)
  | .start t d =>
    some (match check_cache db u with
      | some hit => (db, .finished (.ok hit.id hit.cached))
      | none => (db, .afterMiss t d))
  | .afterMiss t d =>
    some (match dbInsert db u t d with
      | .inserted db' r => (db', .finished (.ok r.id false))
      | .duplicateKey => (db, .retryLookup))
  | .retryLookup =>
    some (match check_cache db u with
      | some hit => (db, .finished (.ok hit.id hit.cached))
      | none => (db, .finished .dbError))
  | .finished _ => none

/-- Interleaving semantics: a step of the whole system is an enabled
step of any one caller, updating the shared database and that caller's
control point. -/
inductive SysStep (u : String) : SysState → SysState → Prop
  | step (s s' : SysState) (i : Nat) (hi : i < s.callers.length)
      (db' : DBState) (c' : CallerState)
      (h : callerStep u s.db (s.callers.get ⟨i, hi⟩) = some (db', c'))
      (h' : s' = ⟨db', s.callers.set i c'⟩) :
      SysStep u s s'

/-- The Cache Store invariant: at most one stored row per URL. -/
def atMostOnePerUrl (db : DBState) : Prop :=
  ∀ v : String, db.rows.countP (fun r => r.url = v) ≤ 1

/-- Per-caller inductive invariant of the race on URL `u`: a caller
about to re-run the lookup after a duplicate-key conflict can rely on a
row for `u` existing; a finished caller has returned (never the 500
database error) the id of a row stored for `u`. -/
def callerOK (u : String) (db : DBState) : CallerState → Prop
  | .start _ _ => True
  | .afterMiss _ _ => True
  | .retryLookup => ∃ r ∈ db.rows, r.url = u
  | .finished (.ok k _) => ∃ r ∈ db.rows, r.url = u ∧ r.id = k
  | .finished .dbError => False

/-- Global inductive invariant of the race. -/
def raceInv (u : String) (s : SysState) : Prop :=
  atMostOnePerUrl s.db ∧ ∀ c ∈ s.callers, callerOK u s.db c

/-! Concrete sample payloads used by counterexamples and witnesses. -/

/-- A well-formed quiz entry whose answer matches an option. -/
def exItem : Json := .obj [("question", .str "Who founded the city?"),
  ("options", .arr [.str "Romulus", .str "Remus", .str "Numa", .str "Brutus"]),
  ("answer", .str "Romulus"), ("difficulty", .str "easy"),
  ("explanation", .str "Stated in the founding myth section.")]

/-- The same quiz entry with its difficulty capitalized as `"Easy"`. -/
def exItemUpper : Json := .obj [("question", .str "Who founded the city?"),
  ("options", .arr [.str "Romulus", .str "Remus", .str "Numa", .str "Brutus"]),
  ("answer", .str "Romulus"), ("difficulty", .str "Easy"),
  ("explanation", .str "Stated in the founding myth section.")]

/-- A full backend response object around the given `key_entities` value
and quiz entries. -/
def mkOutputJson (ke : Json) (quiz : List Json) : Json :=
  .obj [("url", .str "https://en.wikipedia.org/wiki/Rome"),
        ("title", .str "Rome"), ("summary", .str "A city in Italy."),
        ("key_entities", ke), ("sections", .arr [.str "History"]),
        ("quiz", .arr quiz), ("related_topics", .arr [.str "Italy"])]

/-! Claim C8: the minimum-content gate. -/

/-- C8: on a cache miss the orchestrator rejects with the
insufficient-content error exactly when the extracted body text is
shorter than 200 characters (the gate `if not text or len(text) < 200`
fires on length 199 and not on length 200). -/
theorem content_gate_iff (t : String) :
    insufficientContent t = true ↔ t.length < 200 := by
  unfold insufficientContent
  simp only [Bool.or_eq_true, decide_eq_true_eq]
  constructor
  · rintro (rfl | h)
    · decide
    · exact h
  · exact fun h => Or.inr h

set_option maxRecDepth 10000 in
/-- Witness for C8: body text of 199 characters is rejected and body
text of 200 characters is accepted. -/
theorem content_gate_witness :
    insufficientContent (String.mk (List.replicate 199 'a')) = true ∧
    insufficientContent (String.mk (List.replicate 200 'a')) = false := by
  constructor
  · exact (content_gate_iff (String.mk (List.replicate 199 'a'))).mpr (by decide)
  · have h := content_gate_iff (String.mk (List.replicate 200 'a'))
    have hl : ¬ (String.mk (List.replicate 200 'a')).length < 200 := by decide
    exact Bool.eq_false_iff.mpr (fun ht => hl (h.mp ht))

/-! Claim C9: the validator does not tie `answer` to `options`. -/

/-- A quiz entry whose `answer` equals none of its four options. -/
def c9Item : Json := .obj [("question", .str "Capital of France?"),
  ("options", .arr [.str "Berlin", .str "Madrid", .str "Rome", .str "Lisbon"]),
  ("answer", .str "Paris"), ("difficulty", .str "easy"),
  ("explanation", .str "Stated in the lead section.")]

/-- The record the validator produces for `c9Item`. -/
def c9Parsed : QuizItem :=
  ⟨"Capital of France?", ["Berlin", "Madrid", "Rome", "Lisbon"], "Paris",
   "easy", "Stated in the lead section."⟩

/-- C9: there is a quiz item that the schema validator accepts although
its `answer` string equals none of its four `options` entries — the
validator checks presence, option count and difficulty membership but no
cross-field constraint. -/
theorem validator_accepts_answer_not_among_options :
    validateQuizItem c9Item = some c9Parsed ∧
    c9Parsed.answer ∉ c9Parsed.options :=
  ⟨rfl, by decide⟩

/-! Claim C5: the fetch fallback of `scrape_wikipedia`. -/

/-- A source that returns 403 to desktop-identity requests and 500 to
mobile-identity requests. -/
def c5World : World := fun _ ident =>
  match ident with
  | .desktop => .httpError 403
  | .mobile => .httpError 500

set_option maxRecDepth 10000 in
/-- Counterexample to C5 as stated: when the desktop fetch fails with
403 and the mobile retry itself fails (here with 500), the propagated
fetch failure carries the mobile retry's status code 500, not the
original status 403. -/
theorem scrapeFetch_mobile_failure_keeps_mobile_status :
    c5World "https://en.wikipedia.org/wiki/X" .desktop = .httpError 403 ∧
    scrapeFetch c5World "https://en.wikipedia.org/wiki/X" = .error 500 ∧
    (500 : Nat) ≠ 403 :=
  ⟨rfl, rfl, by decide⟩

/-- C5 (amended): if the desktop fetch fails with 403 or 429, the fetch
retries exactly once against the mobile-subdomain rewrite of the URL
with the mobile identity and returns the mobile content on success,
while a failing mobile retry propagates the mobile attempt's status
code; any other non-success desktop status propagates unchanged. -/
theorem scrapeFetch_fallback (w : World) (url : String) (s : Nat)
    (h : w url .desktop = .httpError s) :
    ((s = 403 ∨ s = 429) →
      (∀ html, w (mobileUrl url) .mobile = .success html →
        scrapeFetch w url = .ok html) ∧
      (∀ s2, w (mobileUrl url) .mobile = .httpError s2 →
        scrapeFetch w url = .error s2)) ∧
    (¬(s = 403 ∨ s = 429) → scrapeFetch w url = .error s) := by
  unfold scrapeFetch
  simp only [h]
  constructor
  · intro hs
    have hb : (decide (s = 403) || decide (s = 429)) = true := by
      rcases hs with rfl | rfl <;> decide
    simp only [hb, if_true]
    constructor <;> intro x hx <;> simp only [hx]
  · intro hs
    rcases not_or.mp hs with ⟨h1, h2⟩
    have hb : (decide (s = 403) || decide (s = 429)) = false := by
      simp [h1, h2]
    simp only [hb, if_false]
    rfl

/-- A source that returns 403 to desktop-identity requests and succeeds
for mobile-identity requests. -/
def c5WorldOk : World := fun _ ident =>
  match ident with
  | .desktop => .httpError 403
  | .mobile => .success "mobile html"

/-- Witness for C5 (amended): with desktop requests blocked by 403 and
the mobile host answering 200, `fetch` succeeds with the mobile
content. -/
theorem scrapeFetch_fallback_witness :
    scrapeFetch c5WorldOk "https://en.wikipedia.org/wiki/X" = .ok "mobile html" :=
  ((scrapeFetch_fallback c5WorldOk "https://en.wikipedia.org/wiki/X" 403 rfl).1
    (Or.inl rfl)).1 "mobile html" rfl

/-! Claim C4: order of difficulty normalization and validation. -/

/-- A backend response that is valid except that one quiz entry's
difficulty is spelled `"Easy"`. -/
def c4Easy : Json := mkOutputJson (.obj []) [exItemUpper]

set_option maxRecDepth 10000 in
/-- C4 evaluated on the failing input: `_try_once` runs its first
`model_validate` BEFORE the lowercase loop, so a response that is valid
except for the capitalized difficulty `"Easy"` fails the attempt — even
though the same response validates once its difficulties are
lowercased, which is the order the spec describes
(`specOrderValidate`). -/
theorem tryOnce_rejects_uppercase_difficulty :
    tryOnce (.parsed c4Easy) = .err "ValidationError" ∧
    tryOnceValidate c4Easy = none ∧
    validateQuizOutput c4Easy = none ∧
    specOrderValidate c4Easy = some (lowerDifficulties c4Easy) :=
  ⟨rfl, rfl, rfl, rfl⟩

/-! Claim C1: what shape the schema validator actually enforces. -/

/-- Any item produced by `validateQuizItem` has exactly 4 options and a
difficulty from the literal set. -/
lemma validateQuizItem_shape {j : Json} {it : QuizItem}
    (h : validateQuizItem j = some it) :
    it.options.length = 4 ∧ isDifficulty it.difficulty = true := by
  unfold validateQuizItem at h
  split at h
  · split at h
    · split at h
      · rename_i hcond
        injection h with h'
        subst h'
        rw [Bool.and_eq_true] at hcond
        exact ⟨of_decide_eq_true hcond.1, hcond.2⟩
      · exact absurd h (by simp)
    · exact absurd h (by simp)
  · exact absurd h (by simp)

/-- Any item of a list produced by `validateQuizList` comes from
`validateQuizItem`. -/
lemma validateQuizList_mem {js : List Json} {its : List QuizItem}
    (h : validateQuizList js = some its) {it : QuizItem} (hit : it ∈ its) :
    ∃ j, validateQuizItem j = some it := by
  induction js generalizing its with
  | nil =>
    unfold validateQuizList at h
    injection h with h'
    subst h'
    cases hit
  | cons j rest ih =>
    unfold validateQuizList at h
    split at h
    · rename_i item items hitem hrest
      injection h with h'
      subst h'
      rcases List.mem_cons.mp hit with rfl | hmem
      · exact ⟨j, hitem⟩
      · exact ih hrest hmem
    · exact absurd h (by simp)

/-- The `quiz` field of any output accepted by `validateQuizOutput` is
produced by `validateQuizList`. -/
lemma validateQuizOutput_quiz {j : Json} {q : QuizOutput}
    (h : validateQuizOutput j = some q) :
    ∃ qs, validateQuizList qs = some q.quiz := by
  unfold validateQuizOutput at h
  split at h
  · split at h
    · split at h
      · split at h
        · rename_i items hitems
          injection h with h'
          subst h'
          exact ⟨_, hitems⟩
        · exact absurd h (by simp)
      · exact absurd h (by simp)
    · exact absurd h (by simp)
  · exact absurd h (by simp)

/-- C1 (amended): every `QuizOutput` accepted by the schema validator
has every quiz item's `options` of length exactly 4 and its
`difficulty` among the lowercase strings "easy", "medium", "hard"; the
length of the `quiz` list itself, however, is NOT constrained by the
validator. -/
theorem accepted_output_item_shape {j : Json} {q : QuizOutput}
    (h : validateQuizOutput j = some q) :
    ∀ it ∈ q.quiz, it.options.length = 4 ∧
      (it.difficulty = "easy" ∨ it.difficulty = "medium" ∨ it.difficulty = "hard") := by
  intro it hit
  obtain ⟨qs, hqs⟩ := validateQuizOutput_quiz h
  obtain ⟨j', hj'⟩ := validateQuizList_mem hqs hit
  obtain ⟨h4, hd⟩ := validateQuizItem_shape hj'
  refine ⟨h4, ?_⟩
  unfold isDifficulty at hd
  have hd' : (it.difficulty = "easy" ∨ it.difficulty = "medium") ∨
      it.difficulty = "hard" := by simpa using hd
  tauto

/-- A full backend response whose quiz list has a single entry. -/
def c1Json : Json := mkOutputJson (.obj [("people", .arr [.str "Romulus"])]) [exItem]

/-- The quiz item `exItem` parses to. -/
def exItemParsed : QuizItem :=
  ⟨"Who founded the city?", ["Romulus", "Remus", "Numa", "Brutus"], "Romulus",
   "easy", "Stated in the founding myth section."⟩

/-- The output record the validator produces for `c1Json`. -/
def c1Out : QuizOutput :=
  ⟨"https://en.wikipedia.org/wiki/Rome", "Rome", "A city in Italy.",
   ⟨["Romulus"], [], []⟩, ["History"], [exItemParsed], ["Italy"]⟩

set_option maxRecDepth 10000 in
/-- Counterexample to C1 as stated: the schema validator accepts a
`QuizOutput` whose `quiz` list has length 1, outside the claimed 5-10
range — `models.QuizOutput` puts no length bound on `quiz`. -/
theorem validator_accepts_short_quiz :
    validateQuizOutput c1Json = some c1Out ∧
    c1Out.quiz.length = 1 ∧ ¬(5 ≤ c1Out.quiz.length) :=
  ⟨rfl, rfl, by decide⟩

set_option maxRecDepth 10000 in
/-- Witness for C1 (amended): applying the shape theorem to the
accepted concrete output and its single quiz item. -/
theorem accepted_output_item_shape_witness :
    exItemParsed.options.length = 4 ∧
    (exItemParsed.difficulty = "easy" ∨ exItemParsed.difficulty = "medium" ∨
      exItemParsed.difficulty = "hard") :=
  accepted_output_item_shape (j := c1Json) (q := c1Out) rfl exItemParsed
    (by decide)

/-! Claim C10: optional entity lists with empty-list defaults. -/

/-- Removal of a key from a JSON object field list (to speak about the
same object with one entry omitted). -/
def removeField (fs : List (String × Json)) (k : String) :
    List (String × Json) :=
  fs.filter (fun p => !decide (p.1 = k))

/-- Unfolding equation of `getField` on a nonempty field list. -/
lemma getField_cons (p : String × Json) (rest : List (String × Json))
    (k : String) :
    getField (p :: rest) k = if p.1 = k then some p.2 else getField rest k :=
  rfl

/-- Looking up the removed key misses. -/
lemma getField_removeField_self (fs : List (String × Json)) (k : String) :
    getField (removeField fs k) k = none := by
  induction fs with
  | nil => rfl
  | cons p rest ih =>
    unfold removeField at *
    rw [List.filter_cons]
    by_cases hp : p.1 = k
    · rw [if_neg (by simp [hp])]
      exact ih
    · rw [if_pos (by simp [hp]), getField_cons, if_neg hp]
      exact ih

/-- Looking up any other key is unaffected by the removal. -/
lemma getField_removeField_ne (fs : List (String × Json)) (k k' : String)
    (h : k' ≠ k) :
    getField (removeField fs k) k' = getField fs k' := by
  induction fs with
  | nil => rfl
  | cons p rest ih =>
    unfold removeField at *
    rw [List.filter_cons]
    by_cases hp : p.1 = k
    · rw [if_neg (by simp [hp]), ih, getField_cons,
        if_neg (fun hpk' : p.1 = k' => h (hpk'.symm.trans hp))]
    · rw [if_pos (by simp [hp]), getField_cons, getField_cons]
      by_cases hpk' : p.1 = k'
      · rw [if_pos hpk', if_pos hpk']
      · rw [if_neg hpk', if_neg hpk', ih]

/-- C10: a `key_entities` object that validates keeps validating when
any of `people`, `organizations` or `locations` (or all three) is
omitted, the omitted list defaulting to the empty list — the validator
never requires the three entity lists to be present. -/
theorem keyEntities_fields_optional (fs : List (String × Json))
    (ke : KeyEntities) (h : validateKeyEntities (.obj fs) = some ke) :
    validateKeyEntities (.obj (removeField fs "people")) =
      some ⟨[], ke.organizations, ke.locations⟩ ∧
    validateKeyEntities (.obj (removeField fs "organizations")) =
      some ⟨ke.people, [], ke.locations⟩ ∧
    validateKeyEntities (.obj (removeField fs "locations")) =
      some ⟨ke.people, ke.organizations, []⟩ ∧
    validateKeyEntities
      (.obj (removeField (removeField (removeField fs "people")
        "organizations") "locations")) = some ⟨[], [], []⟩ := by
  simp only [validateKeyEntities] at h
  split at h
  · rename_i p o l hp ho hl
    injection h with h'
    subst h'
    refine ⟨?_, ?_, ?_, ?_⟩
    · simp only [validateKeyEntities]
      rw [show optListField (removeField fs "people") "people" = some [] from
            by unfold optListField; rw [getField_removeField_self],
          show optListField (removeField fs "people") "organizations" =
              some o from
            by unfold optListField
               rw [getField_removeField_ne _ _ _ (by decide)]
               unfold optListField at ho; exact ho,
          show optListField (removeField fs "people") "locations" = some l from
            by unfold optListField
               rw [getField_removeField_ne _ _ _ (by decide)]
               unfold optListField at hl; exact hl]
    · simp only [validateKeyEntities]
      rw [show optListField (removeField fs "organizations") "people" =
              some p from
            by unfold optListField
               rw [getField_removeField_ne _ _ _ (by decide)]
               unfold optListField at hp; exact hp,
          show optListField (removeField fs "organizations") "organizations" =
              some [] from
            by unfold optListField; rw [getField_removeField_self],
          show optListField (removeField fs "organizations") "locations" =
              some l from
            by unfold optListField
               rw [getField_removeField_ne _ _ _ (by decide)]
               unfold optListField at hl; exact hl]
    · simp only [validateKeyEntities]
      rw [show optListField (removeField fs "locations") "people" = some p from
            by unfold optListField
               rw [getField_removeField_ne _ _ _ (by decide)]
               unfold optListField at hp; exact hp,
          show optListField (removeField fs "locations") "organizations" =
              some o from
            by unfold optListField
               rw [getField_removeField_ne _ _ _ (by decide)]
               unfold optListField at ho; exact ho,
          show optListField (removeField fs "locations") "locations" =
              some [] from
            by unfold optListField; rw [getField_removeField_self]]
    · simp only [validateKeyEntities]
      rw [show optListField (removeField (removeField (removeField fs "people")
              "organizations") "locations") "people" = some [] from
            by unfold optListField
               rw [getField_removeField_ne _ _ _ (by decide),
                   getField_removeField_ne _ _ _ (by decide),
                   getField_removeField_self],
          show optListField (removeField (removeField (removeField fs "people")
              "organizations") "locations") "organizations" = some [] from
            by unfold optListField
               rw [getField_removeField_ne _ _ _ (by decide),
                   getField_removeField_self],
          show optListField (removeField (removeField (removeField fs "people")
              "organizations") "locations") "locations" = some [] from
            by unfold optListField; rw [getField_removeField_self]]
  · exact absurd h (by simp)

/-- A `key_entities` object with all three lists present. -/
def c10Fields : List (String × Json) :=
  [("people", .arr [.str "Ada Lovelace"]),
   ("organizations", .arr [.str "Royal Society"]),
   ("locations", .arr [.str "London"])]

/-- Witness for C10: the optionality theorem applied to a concrete
`key_entities` object with all three lists present. -/
theorem keyEntities_fields_optional_witness :
    validateKeyEntities (.obj (removeField c10Fields "people")) =
      some ⟨[], ["Royal Society"], ["London"]⟩ ∧
    validateKeyEntities (.obj (removeField c10Fields "organizations")) =
      some ⟨["Ada Lovelace"], [], ["London"]⟩ ∧
    validateKeyEntities (.obj (removeField c10Fields "locations")) =
      some ⟨["Ada Lovelace"], ["Royal Society"], []⟩ ∧
    validateKeyEntities
      (.obj (removeField (removeField (removeField c10Fields "people")
        "organizations") "locations")) = some ⟨[], [], []⟩ :=
  keyEntities_fields_optional c10Fields
    ⟨["Ada Lovelace"], ["Royal Society"], ["London"]⟩ rfl

/-! Lemmas about `setField`. -/

/-- Looking up a replaced key finds the new value (replacement branch). -/
lemma getField_mapReplace_self (fs : List (String × Json)) (k : String)
    (v : Json) (h : fs.any (fun p => p.1 = k) = true) :
    getField (fs.map (fun p => if p.1 = k then (k, v) else p)) k = some v := by
  induction fs with
  | nil => simp at h
  | cons p rest ih =>
    rw [List.map_cons]
    by_cases hp : p.1 = k
    · rw [if_pos hp, getField_cons]
      simp
    · rw [if_neg hp, getField_cons, if_neg hp]
      apply ih
      rw [List.any_cons, Bool.or_eq_true] at h
      rcases h with h | h
      · exact absurd (of_decide_eq_true h) hp
      · exact h

/-- Replacing one key leaves lookups of other keys unchanged. -/
lemma getField_mapReplace_ne (fs : List (String × Json)) (k : String)
    (v : Json) (k' : String) (h : k' ≠ k) :
    getField (fs.map (fun p => if p.1 = k then (k, v) else p)) k' =
      getField fs k' := by
  induction fs with
  | nil => rfl
  | cons p rest ih =>
    rw [List.map_cons]
    by_cases hp : p.1 = k
    · rw [if_pos hp, getField_cons, getField_cons,
        if_neg (fun hh : k = k' => h hh.symm),
        if_neg (fun hh : p.1 = k' => h (hh.symm.trans hp))]
      exact ih
    · rw [if_neg hp, getField_cons, getField_cons]
      by_cases hpk' : p.1 = k'
      · rw [if_pos hpk', if_pos hpk']
      · rw [if_neg hpk', if_neg hpk']
        exact ih

/-- Looking up an appended key finds it when no earlier entry has it. -/
lemma getField_append_singleton_self (fs : List (String × Json)) (k : String)
    (v : Json) (h : fs.any (fun p => p.1 = k) = false) :
    getField (fs ++ [(k, v)]) k = some v := by
  induction fs with
  | nil =>
    show (if k = k then some v else none) = some v
    rw [if_pos rfl]
  | cons p rest ih =>
    rw [List.any_cons, Bool.or_eq_false_iff] at h
    rw [List.cons_append, getField_cons,
      if_neg (fun hp => by simp [hp] at h)]
    exact ih h.2

/-- Appending a fresh key leaves lookups of other keys unchanged. -/
lemma getField_append_singleton_ne (fs : List (String × Json)) (k : String)
    (v : Json) (k' : String) (h : k' ≠ k) :
    getField (fs ++ [(k, v)]) k' = getField fs k' := by
  induction fs with
  | nil =>
    show (if k = k' then some v else none) = none
    rw [if_neg (fun hh => h hh.symm)]
  | cons p rest ih =>
    rw [List.cons_append, getField_cons, getField_cons]
    by_cases hpk' : p.1 = k'
    · rw [if_pos hpk', if_pos hpk']
    · rw [if_neg hpk', if_neg hpk']
      exact ih

/-- Looking up a key just set finds the new value. -/
lemma getField_setField_self (fs : List (String × Json)) (k : String)
    (v : Json) : getField (setField fs k v) k = some v := by
  unfold setField
  by_cases h : fs.any (fun p => p.1 = k) = true
  · rw [if_pos h]
    exact getField_mapReplace_self fs k v h
  · rw [if_neg h]
    exact getField_append_singleton_self fs k v (Bool.eq_false_iff.mpr h)

/-- Setting one key leaves lookups of other keys unchanged. -/
lemma getField_setField_ne (fs : List (String × Json)) (k : String) (v : Json)
    (k' : String) (h : k' ≠ k) :
    getField (setField fs k v) k' = getField fs k' := by
  unfold setField
  by_cases hany : fs.any (fun p => p.1 = k) = true
  · rw [if_pos hany]
    exact getField_mapReplace_ne fs k v k' h
  · rw [if_neg hany]
    exact getField_append_singleton_ne fs k v k' h

/-! Claim C3: whose `title` wins after a successful attempt. -/

/-- The `title` field of a successful synthesis result. -/
def resultTitle (r : Except String Json) : Option Json :=
  match r with
  | .ok j => jsonGet j "title"
  | .error _ => none

/-- A backend response carrying its own non-empty title "Rome". -/
def c3Backend : Json := mkOutputJson (.obj []) [exItem]

set_option maxRecDepth 10000 in
/-- Counterexample to C3 as stated: the caller supplies the title
"CallerTitle" but the returned output's `title` is the backend's own
"Rome" — `result.get("title") or title` prefers the backend's non-empty
title over the caller's input. -/
theorem generate_quiz_backend_title_wins :
    resultTitle (generate_quiz "https://en.wikipedia.org/wiki/Rome"
      "CallerTitle" (.unparsable "not json") (.parsed c3Backend)) =
      some (.str "Rome") ∧
    ("Rome" : String) ≠ "CallerTitle" :=
  ⟨by rfl, by decide⟩

/-- C3 (amended): when the second synthesis attempt succeeds, the
returned output's `url` is overwritten with the caller's input, while
`title` keeps the backend's own title whenever that title is a
non-empty string — the caller's title is used only when the backend's
title is empty. -/
theorem generate_quiz_title_precedence (url title s : String)
    (r1 r2 : BackendResp) (e1 : String) (d2 : Json)
    (h1 : tryOnce r1 = .err e1) (h2 : tryOnce r2 = .ok d2)
    (hs : jsonGet d2 "title" = some (.str s)) :
    generate_quiz url title r1 r2 = .ok (finalize d2 url title) ∧
    jsonGet (finalize d2 url title) "url" = some (.str url) ∧
    jsonGet (finalize d2 url title) "title" =
      some (.str (if s = "" then title else s)) := by
  obtain ⟨fs, rfl⟩ : ∃ fs, d2 = Json.obj fs := by
    cases d2 with
    | obj fs => exact ⟨fs, rfl⟩
    | str s' => exact absurd hs (by simp [jsonGet])
    | num n => exact absurd hs (by simp [jsonGet])
    | bool b => exact absurd hs (by simp [jsonGet])
    | null => exact absurd hs (by simp [jsonGet])
    | arr es => exact absurd hs (by simp [jsonGet])
  simp only [jsonGet] at hs
  refine ⟨by simp only [generate_quiz, h1, h2], ?_, ?_⟩
  · simp only [finalize, jsonSet, jsonGet]
    rw [getField_setField_ne _ _ _ _ (by decide), getField_setField_self]
  · simp only [finalize, jsonSet, jsonGet]
    rw [getField_setField_self, getField_setField_ne _ _ _ _ (by decide), hs]
    by_cases hse : s = ""
    · subst hse
      simp [jsonTruthy]
    · simp [jsonTruthy, hse]

/-- Witness for C3 (amended): the amended precedence applied to the
concrete backend response `c3Backend`, whose own title is "Rome". -/
theorem generate_quiz_title_precedence_witness :
    generate_quiz "https://u" "CallerTitle" (.unparsable "not json")
      (.parsed c3Backend) =
      .ok (finalize (lowerDifficulties c3Backend) "https://u" "CallerTitle") ∧
    jsonGet (finalize (lowerDifficulties c3Backend) "https://u" "CallerTitle")
      "url" = some (.str "https://u") ∧
    jsonGet (finalize (lowerDifficulties c3Backend) "https://u" "CallerTitle")
      "title" = some (.str (if "Rome" = "" then "CallerTitle" else "Rome")) :=
  generate_quiz_title_precedence "https://u" "CallerTitle" "Rome"
    (.unparsable "not json") (.parsed c3Backend) "not json"
    (lowerDifficulties c3Backend) (by rfl) (by rfl) (by rfl)

/-! Claim C7: retry on malformed output. -/

/-- C7: when the first attempt fails, a valid second (nudged) attempt's
data is returned, and a failing second attempt raises the terminal
error whose diagnostic is the second attempt's. -/
theorem generate_quiz_retry (url title : String) (r1 r2 : BackendResp)
    (e1 : String) (h1 : tryOnce r1 = .err e1) :
    (∀ d2, tryOnce r2 = .ok d2 →
      generate_quiz url title r1 r2 = .ok (finalize d2 url title)) ∧
    (∀ e2, tryOnce r2 = .err e2 →
      generate_quiz url title r1 r2 =
        .error ("Model failed. Last error: " ++ e2)) := by
  constructor <;> intro x hx <;> simp only [generate_quiz, h1, hx]

/-- A schema-valid backend response used by the retry witness. -/
def c7Valid : Json := mkOutputJson (.obj [("locations", .arr [.str "Italy"])])
  [exItem]

set_option maxRecDepth 10000 in
/-- Witness for C7: a first response that is not JSON followed by a
valid nudged response makes `generate_quiz` return the second
response's data; two bad responses surface the second diagnostic. -/
theorem generate_quiz_retry_witness :
    generate_quiz "https://u" "T" (.unparsable "Empty model response")
      (.parsed c7Valid) =
      .ok (finalize (lowerDifficulties c7Valid) "https://u" "T") ∧
    generate_quiz "https://u" "T" (.unparsable "Empty model response")
      (.unparsable "JSONDecodeError: bad") =
      .error ("Model failed. Last error: " ++ "JSONDecodeError: bad") :=
  ⟨(generate_quiz_retry "https://u" "T" (.unparsable "Empty model response")
      (.parsed c7Valid) "Empty model response" rfl).1
      (lowerDifficulties c7Valid) (by rfl),
   (generate_quiz_retry "https://u" "T" (.unparsable "Empty model response")
      (.unparsable "JSONDecodeError: bad") "Empty model response" rfl).2
      "JSONDecodeError: bad" rfl⟩

/-! Lemmas about the database layer. -/

/-- A duplicate-key failure means a row with that URL is already
stored. -/
lemma dbInsert_dup {db : DBState} {u t d : String}
    (h : dbInsert db u t d = .duplicateKey) :
    ∃ r ∈ db.rows, r.url = u := by
  have hany : db.rows.any (fun r => r.url = u) = true := by
    by_contra hn
    unfold dbInsert at h
    rw [if_neg hn] at h
    exact absurd h (by simp)
  obtain ⟨x, hxmem, hx⟩ := List.any_eq_true.mp hany
  exact ⟨x, hxmem, of_decide_eq_true hx⟩

/-- A successful insert appends a fresh row carrying the next id, and
can only happen when no stored row has that URL. -/
lemma dbInsert_inserted {db ndb : DBState} {u t d : String} {r : QuizRow}
    (h : dbInsert db u t d = .inserted ndb r) :
    ndb.rows = db.rows ++ [r] ∧ r.url = u ∧ r.id = db.nextId ∧
    ∀ x ∈ db.rows, x.url ≠ u := by
  unfold dbInsert at h
  by_cases hany : db.rows.any (fun x => x.url = u) = true
  · rw [if_pos hany] at h
    exact absurd h (by simp)
  · rw [if_neg hany] at h
    injection h with h1 h2
    subst h1
    subst h2
    refine ⟨rfl, rfl, rfl, fun x hx hxu => ?_⟩
    exact hany (List.any_eq_true.mpr ⟨x, hx, by simp [hxu]⟩)

/-- A cache hit names a stored row for the looked-up URL. -/
lemma check_cache_some {db : DBState} {u : String} {hit : QuizResponse}
    (hu : pyStrip u = u) (h : check_cache db u = some hit) :
    ∃ r ∈ db.rows, r.url = u ∧ hit = ⟨r.id, true, r.fullQuizData⟩ := by
  unfold check_cache dbLookup at h
  rw [hu] at h
  cases hf : db.rows.find? (fun r => r.url = u) with
  | none =>
    rw [hf] at h
    exact absurd h (by simp)
  | some r =>
    rw [hf] at h
    refine ⟨r, List.mem_of_find?_eq_some hf,
      by simpa using List.find?_some hf, ?_⟩
    simpa using h.symm

/-- A cache miss means no stored row has the looked-up URL. -/
lemma check_cache_none {db : DBState} {u : String}
    (hu : pyStrip u = u) (h : check_cache db u = none) :
    ∀ r ∈ db.rows, r.url ≠ u := by
  unfold check_cache dbLookup at h
  rw [hu, Option.map_eq_none'] at h
  intro r hr hru
  have := List.find?_eq_none.mp h r hr
  simp [hru] at this

/-- When a row for the URL is stored, the cache lookup hits. -/
lemma check_cache_isSome {db : DBState} {u : String}
    (hu : pyStrip u = u) {r : QuizRow} (hmem : r ∈ db.rows)
    (hurl : r.url = u) : ∃ hit, check_cache db u = some hit := by
  cases hc : check_cache db u with
  | none => exact absurd hurl (check_cache_none hu hc r hmem)
  | some hit => exact ⟨hit, rfl⟩

/-! Claim C6: the duplicate-key race is recovered locally. -/

/-- C6: whenever the insert of a freshly synthesized record fails with
the duplicate-key conflict, a row for that URL is already stored, and
the endpoint's recovery path returns exactly that stored row as a cache
hit with the database unchanged — never the 500 database error. -/
theorem duplicateKey_recovered (db : DBState) (url title data : String)
    (hu : pyStrip url = url)
    (h : dbInsert db url title data = .duplicateKey) :
    ∃ r, dbLookup db url = some r ∧ r.url = url ∧
      storeAndReturn db url title data = (db, .ok r.id true) := by
  obtain ⟨x, hxmem, hxurl⟩ := dbInsert_dup h
  have hne : dbLookup db url ≠ none := by
    unfold dbLookup
    intro hnone
    have := List.find?_eq_none.mp hnone x hxmem
    simp [hxurl] at this
  obtain ⟨r, hr⟩ := Option.ne_none_iff_exists'.mp hne
  unfold dbLookup at hr
  have hrurl : r.url = url := by simpa using List.find?_some hr
  refine ⟨r, hr, hrurl, ?_⟩
  simp only [storeAndReturn, h, check_cache, hu]
  unfold dbLookup
  rw [hr]
  rfl

/-- A store with one record for "https://u". -/
def c6DB : DBState := ⟨[⟨0, "https://u", "T", "data"⟩], 1⟩

/-- Witness for C6: a caller whose insert for "https://u" conflicts gets
the stored record back as a cache hit. -/
theorem duplicateKey_recovered_witness :
    storeAndReturn c6DB "https://u" "T2" "d2" = (c6DB, .ok 0 true) := by
  obtain ⟨r, hr, -, hret⟩ :=
    duplicateKey_recovered c6DB "https://u" "T2" "d2" rfl rfl
  have hr0 : dbLookup c6DB "https://u" = some ⟨0, "https://u", "T", "data"⟩ :=
    rfl
  rw [hr0] at hr
  injection hr with hr'
  subst hr'
  exact hret

/-! Claim C2: race safety of the generate endpoint. -/

/-- Exhaustive description of what one caller step can do. -/
lemma callerStep_char {u : String} {db db' : DBState}
    {c c' : CallerState} (h : callerStep u db c = some (db', c')) :
    (∃ t d hit, c = .start t d ∧ check_cache db u = some hit ∧ db' = db ∧
      c' = .finished (.ok hit.id hit.cached)) ∨
    (∃ t d, c = .start t d ∧ check_cache db u = none ∧ db' = db ∧
      c' = .afterMiss t d) ∨
    (∃ t d ndb r, c = .afterMiss t d ∧ dbInsert db u t d = .inserted ndb r ∧
      db' = ndb ∧ c' = .finished (.ok r.id false)) ∨
    (∃ t d, c = .afterMiss t d ∧ dbInsert db u t d = .duplicateKey ∧
      db' = db ∧ c' = .retryLookup) ∨
    (∃ hit, c = .retryLookup ∧ check_cache db u = some hit ∧ db' = db ∧
      c' = .finished (.ok hit.id hit.cached)) ∨
    (c = .retryLookup ∧ check_cache db u = none ∧ db' = db ∧
      c' = .finished .dbError) := by
  cases c with
  | start t d =>
    simp only [callerStep] at h
    cases hc : check_cache db u with
    | some hit =>
      rw [hc] at h
      simp only [Option.some.injEq, Prod.mk.injEq] at h
      exact Or.inl ⟨t, d, hit, rfl, rfl, h.1.symm, h.2.symm⟩
    | none =>
      rw [hc] at h
      simp only [Option.some.injEq, Prod.mk.injEq] at h
      exact Or.inr (Or.inl ⟨t, d, rfl, rfl, h.1.symm, h.2.symm⟩)
  | afterMiss t d =>
    simp only [callerStep] at h
    cases hins : dbInsert db u t d with
    | inserted ndb r =>
      rw [hins] at h
      simp only [Option.some.injEq, Prod.mk.injEq] at h
      exact Or.inr (Or.inr (Or.inl ⟨t, d, ndb, r, rfl, hins, h.1.symm, h.2.symm⟩))
    | duplicateKey =>
      rw [hins] at h
      simp only [Option.some.injEq, Prod.mk.injEq] at h
      exact Or.inr (Or.inr (Or.inr (Or.inl ⟨t, d, rfl, hins, h.1.symm, h.2.symm⟩)))
  | retryLookup =>
    simp only [callerStep] at h
    cases hc : check_cache db u with
    | some hit =>
      rw [hc] at h
      simp only [Option.some.injEq, Prod.mk.injEq] at h
      exact Or.inr (Or.inr (Or.inr (Or.inr (Or.inl
        ⟨hit, rfl, rfl, h.1.symm, h.2.symm⟩))))
    | none =>
      rw [hc] at h
      simp only [Option.some.injEq, Prod.mk.injEq] at h
      exact Or.inr (Or.inr (Or.inr (Or.inr (Or.inr
        ⟨rfl, rfl, h.1.symm, h.2.symm⟩))))
  | finished out => exact absurd h (by simp [callerStep])

/-- A caller step never deletes stored rows. -/
lemma callerStep_rows_mono {u : String} {db db' : DBState}
    {c c' : CallerState} (h : callerStep u db c = some (db', c')) :
    ∀ r ∈ db.rows, r ∈ db'.rows := by
  rcases callerStep_char h with
    ⟨_, _, _, _, _, rfl, _⟩ | ⟨_, _, _, _, rfl, _⟩ |
    ⟨_, _, ndb, nr, _, hins, rfl, _⟩ | ⟨_, _, _, _, rfl, _⟩ |
    ⟨_, _, _, rfl, _⟩ | ⟨_, _, rfl, _⟩
  · exact fun r hr => hr
  · exact fun r hr => hr
  · obtain ⟨hrows, -, -, -⟩ := dbInsert_inserted hins
    rw [hrows]
    exact fun r hr => List.mem_append_left _ hr
  · exact fun r hr => hr
  · exact fun r hr => hr
  · exact fun r hr => hr

/-- Per-caller conditions survive growth of the store. -/
lemma callerOK_mono {u : String} {db db' : DBState} {c : CallerState}
    (hsub : ∀ r ∈ db.rows, r ∈ db'.rows) (h : callerOK u db c) :
    callerOK u db' c := by
  cases c with
  | start t d => trivial
  | afterMiss t d => trivial
  | retryLookup =>
    obtain ⟨r, hr, hru⟩ := h
    exact ⟨r, hsub r hr, hru⟩
  | finished out =>
    cases out with
    | ok k b =>
      obtain ⟨r, hr, hru, hid⟩ := h
      exact ⟨r, hsub r hr, hru, hid⟩
    | dbError => exact h

/-- A successful insert preserves the one-row-per-URL invariant. -/
lemma atMostOnePerUrl_insert {db ndb : DBState} {u t d : String}
    {r : QuizRow} (h : dbInsert db u t d = .inserted ndb r)
    (hinv : atMostOnePerUrl db) : atMostOnePerUrl ndb := by
  obtain ⟨hrows, hurl, -, hfresh⟩ := dbInsert_inserted h
  intro v
  rw [hrows, List.countP_append]
  by_cases hv : v = u
  · subst hv
    have h0 : db.rows.countP (fun x => decide (x.url = v)) = 0 :=
      List.countP_eq_zero.mpr (fun a ha => by simpa using hfresh a ha)
    rw [h0]
    simp [List.countP_cons, hurl]
  · have h1 : List.countP (fun x => decide (x.url = v)) [r] = 0 := by
      have huv : ¬ u = v := fun hh => hv hh.symm
      simp [List.countP_cons, hurl, huv]
    rw [h1]
    simpa using hinv v

/-- The race invariant is preserved by every system step. -/
lemma raceInv_step {u : String} {s s' : SysState} (hu : pyStrip u = u)
    (h : SysStep u s s') (hinv : raceInv u s) : raceInv u s' := by
  obtain ⟨hdb, hcallers⟩ := hinv
  cases h with
  | step i hi db' c' hstep heq =>
  subst heq
  have hsub := callerStep_rows_mono hstep
  have hOKold : callerOK u s.db (s.callers.get ⟨i, hi⟩) :=
    hcallers _ (s.callers.get_mem i hi)
  have hdb' : atMostOnePerUrl db' := by
    rcases callerStep_char hstep with
      ⟨_, _, _, _, _, rfl, _⟩ | ⟨_, _, _, _, rfl, _⟩ |
      ⟨_, _, ndb, nr, _, hins, rfl, _⟩ | ⟨_, _, _, _, rfl, _⟩ |
      ⟨_, _, _, rfl, _⟩ | ⟨_, _, rfl, _⟩
    · exact hdb
    · exact hdb
    · exact atMostOnePerUrl_insert hins hdb
    · exact hdb
    · exact hdb
    · exact hdb
  have hOKnew : callerOK u db' c' := by
    rcases callerStep_char hstep with
      ⟨t, d, hit, hc, hcc, rfl, rfl⟩ | ⟨t, d, hc, hcc, rfl, rfl⟩ |
      ⟨t, d, ndb, nr, hc, hins, rfl, rfl⟩ | ⟨t, d, hc, hins, rfl, rfl⟩ |
      ⟨hit, hc, hcc, rfl, rfl⟩ | ⟨hc, hcc, rfl, rfl⟩
    · obtain ⟨r, hrmem, hrurl, hhit⟩ := check_cache_some hu hcc
      exact ⟨r, hrmem, hrurl, by rw [hhit]⟩
    · trivial
    · obtain ⟨hrows, hurl, -, -⟩ := dbInsert_inserted hins
      exact ⟨nr, by rw [hrows]; exact List.mem_append_right _ (by simp), hurl,
        rfl⟩
    · obtain ⟨r, hrmem, hrurl⟩ := dbInsert_dup hins
      exact ⟨r, hrmem, hrurl⟩
    · obtain ⟨r, hrmem, hrurl, hhit⟩ := check_cache_some hu hcc
      exact ⟨r, hrmem, hrurl, by rw [hhit]⟩
    · rw [hc] at hOKold
      obtain ⟨r, hrmem, hrurl⟩ := hOKold
      exact absurd hrurl (check_cache_none hu hcc r hrmem)
  refine ⟨hdb', fun c hc => ?_⟩
  rcases List.mem_or_eq_of_mem_set hc with hmem | rfl
  · exact callerOK_mono hsub (hcallers c hmem)
  · exact hOKnew

/-- The race invariant holds in every reachable state. -/
lemma raceInv_reach {u : String} {s0 s : SysState} (hu : pyStrip u = u)
    (h0 : raceInv u s0) (h : Relation.ReflTransGen (SysStep u) s0 s) :
    raceInv u s := by
  induction h with
  | refl => exact h0
  | tail hsteps hstep ih => exact raceInv_step hu hstep ih

/-- With at most one element satisfying a predicate, two satisfying
members coincide. -/
lemma countP_le_one_eq {α : Type} {l : List α} {p : α → Bool}
    (h : l.countP p ≤ 1) {a b : α} (ha : a ∈ l) (hb : b ∈ l)
    (hpa : p a = true) (hpb : p b = true) : a = b := by
  rw [List.countP_eq_length_filter] at h
  have ha' : a ∈ l.filter p := List.mem_filter.mpr ⟨ha, hpa⟩
  have hb' : b ∈ l.filter p := List.mem_filter.mpr ⟨hb, hpb⟩
  cases hf : l.filter p with
  | nil =>
    rw [hf] at ha'
    cases ha'
  | cons x t =>
    cases t with
    | nil =>
      rw [hf] at ha' hb'
      have hax : a = x := by simpa using ha'
      have hbx : b = x := by simpa using hb'
      rw [hax, hbx]
    | cons y t2 =>
      rw [hf] at h
      simp at h

/-- C2: starting from any store satisfying the one-row-per-URL
invariant, with any number of first-time callers racing on a URL `u`
not yet stored, every reachable state still satisfies the invariant;
and once every caller has finished, exactly one row for `u` is durably
stored — a row that did not exist initially — and every caller has
returned the id of that single row (none with the database error). -/
theorem generate_race_unique (u : String) (hu : pyStrip u = u)
    (s0 s : SysState) (h0 : atMostOnePerUrl s0.db)
    (hstart : ∀ c ∈ s0.callers, ∃ t d, c = CallerState.start t d)
    (hnew : ∀ r ∈ s0.db.rows, r.url ≠ u)
    (hreach : Relation.ReflTransGen (SysStep u) s0 s) :
    atMostOnePerUrl s.db ∧
    ((∀ c ∈ s.callers, ∃ out, c = CallerState.finished out) →
      s.callers ≠ [] →
      ∃ r ∈ s.db.rows, r.url = u ∧ r ∉ s0.db.rows ∧
        s.db.rows.countP (fun x => x.url = u) = 1 ∧
        ∀ c ∈ s.callers, ∃ b, c = CallerState.finished (Outcome.ok r.id b)) := by
  have hinv : raceInv u s := by
    refine raceInv_reach hu ⟨h0, fun c hc => ?_⟩ hreach
    obtain ⟨t, d, rfl⟩ := hstart c hc
    trivial
  refine ⟨hinv.1, fun hdone hne => ?_⟩
  obtain ⟨c0, hc0⟩ := List.exists_mem_of_ne_nil s.callers hne
  obtain ⟨out0, rfl⟩ := hdone c0 hc0
  have hok0 := hinv.2 _ hc0
  cases out0 with
  | dbError => exact absurd hok0 (by simp [callerOK])
  | ok k b =>
    obtain ⟨r, hrmem, hrurl, hrid⟩ := hok0
    refine ⟨r, hrmem, hrurl, fun hmem0 => hnew r hmem0 hrurl, ?_, ?_⟩
    · have hle := hinv.1 u
      have hge : 0 < s.db.rows.countP (fun x => x.url = u) :=
        List.countP_pos_iff.mpr ⟨r, hrmem, by simp [hrurl]⟩
      omega
    · intro c hc
      obtain ⟨out, rfl⟩ := hdone c hc
      have hok := hinv.2 _ hc
      cases out with
      | dbError => exact absurd hok (by simp [callerOK])
      | ok k' b' =>
        obtain ⟨r', hr'mem, hr'url, hr'id⟩ := hok
        have hrr : r' = r := countP_le_one_eq (hinv.1 u) hr'mem hrmem
          (by simp [hr'url]) (by simp [hrurl])
        exact ⟨b', by rw [← hr'id, hrr]⟩

/-- The URL two concrete callers race on. -/
def wU : String := "https://u"

/-- The empty initial store. -/
def wDB0 : DBState := ⟨[], 0⟩

/-- The store after the first caller's insert. -/
def wDB1 : DBState := ⟨[⟨0, "https://u", "T1", "D1"⟩], 1⟩

/-- Both callers about to check the cache. -/
def wS0 : SysState := ⟨wDB0, [.start "T1" "D1", .start "T2" "D2"]⟩

/-- Caller 0 has missed the cache. -/
def wS1 : SysState := ⟨wDB0, [.afterMiss "T1" "D1", .start "T2" "D2"]⟩

/-- Caller 1 has missed the cache as well. -/
def wS2 : SysState := ⟨wDB0, [.afterMiss "T1" "D1", .afterMiss "T2" "D2"]⟩

/-- Caller 0 has inserted its record and returned it uncached. -/
def wS3 : SysState := ⟨wDB1, [.finished (.ok 0 false), .afterMiss "T2" "D2"]⟩

/-- Caller 1 has hit the duplicate-key conflict. -/
def wS4 : SysState := ⟨wDB1, [.finished (.ok 0 false), .retryLookup]⟩

/-- Caller 1 has re-run the lookup and returned the stored record. -/
def wS5 : SysState := ⟨wDB1, [.finished (.ok 0 false), .finished (.ok 0 true)]⟩

/-- The interleaved run of the two callers. -/
lemma wTrace : Relation.ReflTransGen (SysStep wU) wS0 wS5 :=
  ((((Relation.ReflTransGen.refl.tail
    (SysStep.step wS0 wS1 0 (by decide) wDB0 (.afterMiss "T1" "D1") rfl rfl)).tail
    (SysStep.step wS1 wS2 1 (by decide) wDB0 (.afterMiss "T2" "D2") rfl rfl)).tail
    (SysStep.step wS2 wS3 0 (by decide) wDB1 (.finished (.ok 0 false)) rfl rfl)).tail
    (SysStep.step wS3 wS4 1 (by decide) wDB1 .retryLookup rfl rfl)).tail
    (SysStep.step wS4 wS5 1 (by decide) wDB1 (.finished (.ok 0 true)) rfl rfl)

/-- Witness for C2: two callers racing on the fresh URL "https://u"
finish with exactly one stored row whose id both report. -/
theorem generate_race_unique_witness :
    atMostOnePerUrl wS5.db ∧
    ∃ r ∈ wS5.db.rows, r.url = wU ∧ r ∉ wS0.db.rows ∧
      wS5.db.rows.countP (fun x => x.url = wU) = 1 ∧
      ∀ c ∈ wS5.callers, ∃ b, c = CallerState.finished (Outcome.ok r.id b) := by
  have h := generate_race_unique wU rfl wS0 wS5
    (by intro v; simp [wS0, wDB0])
    (by
      intro c hc
      simp only [wS0, List.mem_cons, List.not_mem_nil, or_false] at hc
      rcases hc with rfl | rfl
      · exact ⟨"T1", "D1", rfl⟩
      · exact ⟨"T2", "D2", rfl⟩)
    (by intro r hr; simp [wS0, wDB0] at hr)
    wTrace
  refine ⟨h.1, h.2 ?_ (by simp [wS5])⟩
  intro c hc
  simp only [wS5, List.mem_cons, List.not_mem_nil, or_false] at hc
  rcases hc with rfl | rfl
  · exact ⟨.ok 0 false, rfl⟩
  · exact ⟨.ok 0 true, rfl⟩

end WikiQuiz
